import Mathlib

/-!
A shallow embedding of the memory controller, I/O-port decoder, ULA attribute
decode and CRC-32 checksum of `next.h` (a ZX Spectrum Next mock), together
with theorems about its paging, Layer 2, bulk-write, word-access and checksum
behaviour.

Conventions of the embedding:
* `nxWord`/`nxByte` values are `Nat`s; wherever the C code performs a
  narrowing store or an argument conversion that can actually truncate, an
  explicit `% 65536` / `% 256` appears at that spot.
* The fixed arrays `banks[4]`, `pages[64][16384]` and `palette[256]` are
  modelled as total functions; the C code only ever indexes them inside
  their bounds in the situations the theorems talk about.
* `nxRedraw` is a host-window invalidation; per the design it is a dirty
  flag, so it is modelled as a Boolean `redraw` field of the state.
-/

set_option maxRecDepth 100000

/-- Machine state: the fields of `struct _Next` that the memory, port, video
and checksum code reads or writes (window/timing handles are host resources
and are not part of the data model). -/
structure NextState where
  banks : Fin 4 → Nat
  pages : Nat → Nat → Nat
  palette : Nat → Nat
  page0_2 : Nat
  page3_5 : Nat
  flash : Bool
  border : Nat
  layer2Bank : Nat
  layer2BankStart : Nat
  layer2ShadowBankStart : Nat
  layer2Transparent : Nat
  layer2ShadowEnable : Bool
  layer2Enable : Bool
  layer2Write0 : Bool
  nextRegSelect : Nat
  redraw : Bool

/-- Slot of a 16-bit address: `(address & 0xc000) >> 14`, as computed at the
top of `nxCalcMem`.  The masked shift is always below 4, so it indexes
`banks[4]` safely. -/
def slotOf (a : Nat) : Fin 4 :=
  ⟨(a &&& 0xc000) >>> 14, by
    have h1 : a &&& 0xc000 ≤ 0xc000 := Nat.and_le_right
    have h2 := Nat.shiftRight_eq_div_pow (a &&& 0xc000) 14
    omega⟩

/-- Address translation `nxCalcMem`: returns `(bank, offset)`.  The offset is
`address & 0x3fff`.  On a write with `layer2Write0` set the bank is the
Layer 2 VRAM bank `(shadow ? shadowStart : start) + subBank` (stored into an
`nxByte`, hence `% 256`); otherwise it is `banks[slot]`.  Note that the C
code applies the redirect to writes in *every* slot: there is no
`slot == 1` test. -/
def nxCalcMem (N : NextState) (address : Nat) (isWrite : Bool) : Nat × Nat :=
  let p := address &&& 0x3fff
  let bank :=
    if isWrite && N.layer2Write0 then
      if N.layer2ShadowEnable then (N.layer2ShadowBankStart + N.layer2Bank) % 256
      else (N.layer2BankStart + N.layer2Bank) % 256
    else N.banks (slotOf address)
  (bank, p)

/-- Redraw request (`nxRedraw`), modelled as setting the dirty flag. -/
def nxRedraw (N : NextState) : NextState := { N with redraw := true }

/-- `nxPoke`: write a byte through the address translator. -/
def nxPoke (N : NextState) (address b : Nat) : NextState :=
  let m := nxCalcMem N address true
  { N with pages := fun bk o => if bk = m.1 ∧ o = m.2 then b else N.pages bk o }

/-- `nxPoke16`: two independent byte writes, low byte at `address`, high byte
at `address + 1` — the second address is an `nxWord` and so wraps mod 65536. -/
def nxPoke16 (N : NextState) (address w : Nat) : NextState :=
  nxPoke (nxPoke N address (w % 256)) ((address + 1) % 65536) (w / 256 % 256)

/-- `nxPokeEx`: direct write into one bank, offset masked to 14 bits. -/
def nxPokeEx (N : NextState) (bank address b : Nat) : NextState :=
  let a := address &&& 0x3fff
  { N with pages := fun bk o => if bk = bank ∧ o = a then b else N.pages bk o }

/-- Loop body of `nxPokeBuffer`: pokes the bytes one at a time through
`nxPoke` at consecutive addresses (each actual argument is an `nxWord`). -/
def nxPokeBufferLoop (N : NextState) (address : Nat) : List Nat → NextState
  | [] => N
  | b :: rest => nxPokeBufferLoop (nxPoke N (address % 65536) b) (address + 1) rest

/-- `nxPokeBuffer`: bounds-checked bulk write through the translator;
requests a redraw on success. -/
def nxPokeBuffer (N : NextState) (address : Nat) (buffer : List Nat) : Bool × NextState :=
  if address + buffer.length > 65536 then (false, N)
  else (true, nxRedraw (nxPokeBufferLoop N address buffer))

/-- Loop body of `nxPokeBufferEx`.  Note that `address` is passed along
unchanged between iterations — the C loop never increments it. -/
def nxPokeBufferExLoop (N : NextState) (bank address : Nat) : List Nat → NextState
  | [] => N
  | b :: rest => nxPokeBufferExLoop (nxPokeEx N bank address b) bank address rest

/-- `nxPokeBufferEx`: bounds-checked bulk write into a single bank. -/
def nxPokeBufferEx (N : NextState) (bank address : Nat) (buffer : List Nat) :
    Bool × NextState :=
  if address + buffer.length > 16384 then (false, N)
  else (true, nxRedraw (nxPokeBufferExLoop N bank address buffer))

/-- `nxPeekEx`: direct read from one bank, offset masked to 14 bits. -/
def nxPeekEx (N : NextState) (bank p : Nat) : Nat :=
  N.pages bank (p &&& 0x3fff)

/-- `nxPeek`: read a byte through the address translator (a read, so the
Layer 2 write redirect never applies). -/
def nxPeek (N : NextState) (address : Nat) : Nat :=
  let m := nxCalcMem N address false
  nxPeekEx N m.1 m.2

/-- `nxPeek16`: little-endian word read from two independent byte reads; the
second address is an `nxWord` and so wraps mod 65536. -/
def nxPeek16 (N : NextState) (address : Nat) : Nat :=
  nxPeek N address + 256 * nxPeek N ((address + 1) % 65536)

/-- Port-write decoder `nxOut`.  `h`/`l` are the `NX_HI`/`NX_LO` bytes of the
16-bit port.  Cases, exactly as the C `switch`:
* low `0xfd`: high `0x7f` latches the low paging bits, high `0xdf` the high
  paging bits (any other high byte latches nothing), and in all cases
  `banks[3]` is recomputed as `page0_2 + (page3_5 << 3)` (a byte store);
* low `0xfe`: border from the low 3 bits, redraw;
* low `0x3b`: high `0x12` is the Layer 2 access port, `0x24` register
  select, `0x25` register write dispatching on the selected register
  (`0x12`/`0x13`/`0x14`), `0x30` a no-op. -/
def nxOut (N : NextState) (port b : Nat) : NextState :=
  let h := port / 256 % 256
  let l := port % 256
  if l = 0xfd then
    let N1 :=
      if h = 0x7f then { N with page0_2 := b &&& 0x07 }
      else if h = 0xdf then { N with page3_5 := b &&& 0x07 }
      else N
    { N1 with banks := fun i =>
        if i = 3 then (N1.page0_2 + (N1.page3_5 <<< 3)) % 256 else N1.banks i }
  else if l = 0xfe then
    { N with border := b &&& 7, redraw := true }
  else if l = 0x3b then
    if h = 0x12 then
      { N with layer2Bank := (b &&& 0xc0) >>> 6,
               layer2ShadowEnable := b &&& 0x08 != 0,
               layer2Enable := b &&& 0x02 != 0,
               layer2Write0 := b &&& 0x01 != 0,
               redraw := true }
    else if h = 0x24 then { N with nextRegSelect := b }
    else if h = 0x25 then
      if N.nextRegSelect = 0x12 then
        { N with layer2BankStart := b &&& 31, redraw := true }
      else if N.nextRegSelect = 0x13 then
        { N with layer2ShadowBankStart := b &&& 31, redraw := true }
      else if N.nextRegSelect = 0x14 then
        { N with layer2Transparent := b }
      else N
    else N
  else N

/-- Initial state built by `nxOpen`: the struct is zero-cleared, then the
slot table, identity palette and Layer 2 defaults are assigned. -/
def nxOpen : NextState :=
  { banks := fun i => if i = 1 then 5 else if i = 2 then 2 else 0,
    pages := fun _ _ => 0,
    palette := fun i => i % 256,
    page0_2 := 0,
    page3_5 := 0,
    flash := false,
    border := 0,
    layer2Bank := 0,
    layer2BankStart := 8,
    layer2ShadowBankStart := 11,
    layer2Transparent := 0xe3,
    layer2ShadowEnable := false,
    layer2Enable := false,
    layer2Write0 := false,
    nextRegSelect := 0,
    redraw := false }

/-- The 16-entry ULA colour table of `nxRenderULA` (entries 8–15 are the
bright variants). -/
def ulaColours : List Nat :=
  [0x000000, 0x0000d7, 0xd70000, 0xd700d7, 0x00d700, 0x00d7d7, 0xd7d700, 0xd7d7d7,
   0x000000, 0x0000ff, 0xff0000, 0xff00ff, 0x00ff00, 0x00ffff, 0xffff00, 0xffffff]

/-- Lookup in the ULA colour table. -/
def colourAt (i : Nat) : Nat := ulaColours.getD i 0

/-- Ink colour index from an attribute byte: `(attr & 7) + ((attr & 0x40) >> 3)`
(`nxRenderULA`). -/
def inkIndex (attr : Nat) : Nat := (attr &&& 7) + ((attr &&& 0x40) >>> 3)

/-- Paper colour index from an attribute byte: `(attr & 0x7f) >> 3`
(`nxRenderULA`) — bits 3 to 6, so the bright bit 6 lands in bit 3 of the
index. -/
def paperIndex (attr : Nat) : Nat := (attr &&& 0x7f) >>> 3

/-- Attribute decode of `nxRenderULA` for one cell: the (ink, paper) colour
pair used to expand the bitmap byte, after the flash swap (bit 7 of the
attribute ANDed with the global flash toggle). -/
def ulaCellColours (attr : Nat) (flashActive : Bool) : Nat × Nat :=
  let ink := colourAt (inkIndex attr)
  let paper := colourAt (paperIndex attr)
  if (attr &&& 0x80 != 0) && flashActive then (paper, ink) else (ink, paper)

/-- The CRC-32 polynomial used by `nxCrcMakeTable`. -/
def crcPoly : Nat := 0xedb88320

/-- One iteration of the inner loop of `nxCrcMakeTable`: a reflected
polynomial-reduction step. -/
def crcStep (c : Nat) : Nat :=
  if c &&& 1 = 1 then crcPoly ^^^ (c >>> 1) else c >>> 1

/-- Eight iterations of `crcStep` — the full inner loop. -/
def crcStep8 (c : Nat) : Nat :=
  crcStep (crcStep (crcStep (crcStep (crcStep (crcStep (crcStep (crcStep c)))))))

/-- Entry `n` of the (lazily built, here purely functional) table
`kCrcTable`: the inner loop of `nxCrcMakeTable` applied to `n`. -/
def kCrcTable (n : Nat) : Nat := crcStep8 n

/-- `nxCrc32Update`: table-driven CRC update over a byte sequence. -/
def nxCrc32Update (crc : Nat) (data : List Nat) : Nat :=
  data.foldl (fun c d => kCrcTable ((c ^^^ d) &&& 0xff) ^^^ (c >>> 8)) crc

/-- `nxCrc32`: seed `0xffffffff`, update, final XOR with `0xffffffff`. -/
def nxCrc32 (data : List Nat) : Nat :=
  nxCrc32Update 0xffffffff data ^^^ 0xffffffff

/-- Reference definition following the specification's words: the standard
bit-serial reflected CRC-32 — polynomial `0xedb88320`, seed `0xffffffff`,
each byte XORed into the low bits of the running value followed by eight
conditional polynomial-reduction shifts, and a final XOR with
`0xffffffff`. -/
def crc32Spec (data : List Nat) : Nat :=
  (data.foldl (fun c d => crcStep8 (c ^^^ d)) 0xffffffff) ^^^ 0xffffffff

/-! ### Helper lemmas -/

theorem crcStep_xor (a b : Nat) : crcStep (a ^^^ b) = crcStep a ^^^ crcStep b := by
  have hshift : (a ^^^ b) >>> 1 = (a >>> 1) ^^^ (b >>> 1) := by
    apply Nat.eq_of_testBit_eq; intro i
    simp [Nat.testBit_shiftRight, Nat.testBit_xor]
  have hand : (a ^^^ b) &&& 1 = (a &&& 1) ^^^ (b &&& 1) := by
    apply Nat.eq_of_testBit_eq; intro i
    simp only [Nat.testBit_and, Nat.testBit_xor]
    cases a.testBit i <;> cases b.testBit i <;> cases (1 : Nat).testBit i <;> rfl
  have hcancel : ∀ x y : Nat, (crcPoly ^^^ x) ^^^ (crcPoly ^^^ y) = x ^^^ y := by
    intro x y
    apply Nat.eq_of_testBit_eq; intro i
    simp only [Nat.testBit_xor]
    cases crcPoly.testBit i <;> cases x.testBit i <;> cases y.testBit i <;> rfl
  have hsh1 : ∀ x y : Nat, crcPoly ^^^ (x ^^^ y) = x ^^^ (crcPoly ^^^ y) := by
    intro x y
    apply Nat.eq_of_testBit_eq; intro i
    simp only [Nat.testBit_xor]
    cases crcPoly.testBit i <;> cases x.testBit i <;> cases y.testBit i <;> rfl
  have hsh2 : ∀ x y : Nat, crcPoly ^^^ (x ^^^ y) = y ^^^ (crcPoly ^^^ x) := by
    intro x y
    apply Nat.eq_of_testBit_eq; intro i
    simp only [Nat.testBit_xor]
    cases crcPoly.testBit i <;> cases x.testBit i <;> cases y.testBit i <;> rfl
  have ha1 : a &&& 1 = a % 2 := Nat.and_one_is_mod a
  have hb1 : b &&& 1 = b % 2 := Nat.and_one_is_mod b
  rcases Nat.mod_two_eq_zero_or_one a with ha | ha <;>
    rcases Nat.mod_two_eq_zero_or_one b with hb | hb <;>
      simp [crcStep, hand, hshift, ha1, hb1, ha, hb, hcancel, hsh1, hsh2, Nat.xor_assoc]

theorem crcStep8_xor (a b : Nat) : crcStep8 (a ^^^ b) = crcStep8 a ^^^ crcStep8 b := by
  simp [crcStep8, crcStep_xor]

theorem crcStep_two_mul (x : Nat) : crcStep (2 * x) = x := by
  have h1 : (2 * x) &&& 1 = 0 := by
    rw [Nat.and_one_is_mod]; omega
  simp [crcStep, h1, Nat.shiftRight_one]

theorem crcStep8_shl (x : Nat) : crcStep8 (x <<< 8) = x := by
  have h : x <<< 8 = 2 * (2 * (2 * (2 * (2 * (2 * (2 * (2 * x))))))) := by
    rw [Nat.shiftLeft_eq]; ring
  rw [h]; simp [crcStep8, crcStep_two_mul]

theorem crc_low_high_split (x : Nat) : x &&& 255 ^^^ (x >>> 8) <<< 8 = x := by
  apply Nat.eq_of_testBit_eq
  intro i
  simp only [Nat.testBit_xor, Nat.testBit_and, Nat.testBit_shiftLeft, Nat.testBit_shiftRight]
  by_cases h : i < 8
  · have h8 : ¬ (8 ≤ i) := by omega
    have h255 : Nat.testBit 255 i = true := by
      have := Nat.testBit_two_pow_sub_one 8 i
      norm_num at this
      simp [this, h]
    simp [h8, h255]
  · have h8 : 8 ≤ i := by omega
    have h255 : Nat.testBit 255 i = false := by
      apply Nat.testBit_lt_two_pow
      calc (255 : Nat) < 2 ^ 8 := by norm_num
      _ ≤ 2 ^ i := Nat.pow_le_pow_right (by norm_num) h8
    have hi : 8 + (i - 8) = i := by omega
    simp [h8, h255, hi]

theorem crc_xor_small_shift (c d : Nat) (hd : d < 256) : (c ^^^ d) >>> 8 = c >>> 8 := by
  apply Nat.eq_of_testBit_eq
  intro i
  simp only [Nat.testBit_shiftRight, Nat.testBit_xor]
  have hbit : Nat.testBit d (8 + i) = false := by
    apply Nat.testBit_lt_two_pow
    calc d < 256 := hd
    _ = 2 ^ 8 := by norm_num
    _ ≤ 2 ^ (8 + i) := Nat.pow_le_pow_right (by norm_num) (by omega)
  simp [hbit]

theorem crcStep8_decomp (x : Nat) : crcStep8 x = crcStep8 (x &&& 255) ^^^ (x >>> 8) := by
  conv_lhs => rw [← crc_low_high_split x]
  rw [crcStep8_xor, crcStep8_shl]

theorem crcUpdate_byte (c d : Nat) (hd : d < 256) :
    kCrcTable ((c ^^^ d) &&& 0xff) ^^^ (c >>> 8) = crcStep8 (c ^^^ d) := by
  rw [crcStep8_decomp (c ^^^ d), crc_xor_small_shift c d hd]
  rfl

theorem nxCrc32Update_eq_spec (data : List Nat) (hd : ∀ d ∈ data, d < 256) :
    ∀ crc, nxCrc32Update crc data = data.foldl (fun c d => crcStep8 (c ^^^ d)) crc := by
  induction data with
  | nil => intro crc; rfl
  | cons d rest ih =>
    intro crc
    have hd0 : d < 256 := hd d (by simp)
    have hrest : ∀ x ∈ rest, x < 256 := fun x hx => hd x (by simp [hx])
    have step : nxCrc32Update crc (d :: rest) =
        nxCrc32Update (kCrcTable ((crc ^^^ d) &&& 0xff) ^^^ (crc >>> 8)) rest := rfl
    rw [step, ih hrest, List.foldl_cons, crcUpdate_byte crc d hd0]

theorem l2_bank_bits : ∀ w < 256, (w &&& 0xc0) >>> 6 = (w >>> 6) &&& 3 := by decide

theorem l2_bit_test : ∀ w < 256,
    ((w &&& 0x08 != 0) = w.testBit 3) ∧ ((w &&& 0x02 != 0) = w.testBit 1) ∧
    ((w &&& 0x01 != 0) = w.testBit 0) := by decide

/-! ### Claim theorems -/

/-- C1 (code bug evidence).  After arming the Layer 2 write redirect via port
`0x123b` with value 1 (`write0` set, `shadowEnable` clear, sub-bank 0), a
*slot 0* write — address `0x0000`, whose slot is 0, not 1 — is still
redirected by `nxCalcMem` to Layer 2 bank `bankStart + subBank = 8`, instead
of `banks[0] = 0` as the specification (and the code's own comments) demand:
the C code has no `slot == 1` test. -/
theorem nxCalcMem_redirects_slot0_write :
    (nxOut nxOpen 0x123b 1).layer2Write0 = true ∧
    (nxOut nxOpen 0x123b 1).banks 0 = 0 ∧
    slotOf 0x0000 = 0 ∧
    nxCalcMem (nxOut nxOpen 0x123b 1) 0x0000 true = (8, 0) ∧
    (nxCalcMem (nxOut nxOpen 0x123b 1) 0x0000 true).1 ≠
      (nxOut nxOpen 0x123b 1).banks (slotOf 0x0000) := by
  refine ⟨rfl, rfl, rfl, rfl, by decide⟩

/-- C2 (code bug evidence).  `nxPokeBufferEx` on bank 0, offset 0, buffer
`[1, 2]` reports success, but because the C loop never advances `address`
every byte lands on offset 0: offset 0 ends as 2 (the *last* byte, not the
first) and offset 1 is untouched (0, not 2).  The bounds check itself behaves
as specified (offset 16380 with 5 bytes fails). -/
theorem nxPokeBufferEx_conflates_offsets :
    (nxPokeBufferEx nxOpen 0 0 [1, 2]).1 = true ∧
    nxPeekEx (nxPokeBufferEx nxOpen 0 0 [1, 2]).2 0 0 = 2 ∧
    nxPeekEx (nxPokeBufferEx nxOpen 0 0 [1, 2]).2 0 1 = 0 ∧
    (nxPokeBufferEx nxOpen 0 16380 [1, 2, 3, 4, 5]).1 = false := by
  refine ⟨by decide, by decide, by decide, by decide⟩

/-- C3 counterexample.  The claim says the paper colour index is
`(attr >> 3) & 7`; for attribute `0x48` (paper 1, bright set) the renderer
computes paper index `(attr & 0x7f) >> 3 = 9`, not `1` — the bright bit 6
participates in the paper index. -/
theorem paper_index_bright_cex :
    paperIndex 0x48 = 9 ∧ (0x48 >>> 3) &&& 7 = 1 ∧
    paperIndex 0x48 ≠ (0x48 >>> 3) &&& 7 := by decide

/-- C3 (amended).  For every attribute byte: the ink index is
`(attr & 7) + (bit6 << 3)` as claimed; the paper index is `(attr >> 3) & 15`
— bits 3 to 5 *plus the bright bit 6* shifted into bit 3 of the index (not
just bits 3 to 5); without the flash condition the cell colours are
`(ink, paper)`, and when bit 7 is set and the global flash toggle is active
they are swapped. -/
theorem ula_attribute_decode : ∀ attr < 256,
    inkIndex attr = (attr &&& 7) + (((attr >>> 6) &&& 1) <<< 3) ∧
    paperIndex attr = (attr >>> 3) &&& 15 ∧
    ulaCellColours attr false = (colourAt (inkIndex attr), colourAt (paperIndex attr)) ∧
    (attr &&& 0x80 = 0 →
      ulaCellColours attr true = (colourAt (inkIndex attr), colourAt (paperIndex attr))) ∧
    (attr &&& 0x80 ≠ 0 →
      ulaCellColours attr true = (colourAt (paperIndex attr), colourAt (inkIndex attr))) := by
  decide

/-- Witness for the amended C3 theorem at attribute `0x48`. -/
theorem ula_attribute_decode_witness :
    paperIndex 0x48 = (0x48 >>> 3) &&& 15 ∧
    inkIndex 0x48 = (0x48 &&& 7) + (((0x48 >>> 6) &&& 1) <<< 3) := by
  have h := ula_attribute_decode 0x48 (by decide)
  exact ⟨h.2.1, h.1⟩

/-- C4.  `nxPokeBuffer` fails, returning the state untouched, exactly when
`address + length > 65536`; otherwise it succeeds, the resulting state is the
byte-by-byte sequence of `nxPoke`s (each routed through the translator), and
the redraw flag is raised. -/
theorem nxPokeBuffer_bounds (N : NextState) (a : Nat) (buf : List Nat)
    (ha : a < 65536) (hs : buf.length < 65536) :
    (a + buf.length > 65536 → nxPokeBuffer N a buf = (false, N)) ∧
    (a + buf.length ≤ 65536 →
      (nxPokeBuffer N a buf).1 = true ∧
      (nxPokeBuffer N a buf).2 = nxRedraw (nxPokeBufferLoop N a buf) ∧
      (nxPokeBuffer N a buf).2.redraw = true) := by
  constructor
  · intro h
    simp [nxPokeBuffer, h]
  · intro h
    have h2 : ¬ (a + buf.length > 65536) := by omega
    simp [nxPokeBuffer, h2, nxRedraw]

/-- Witness for C4 at the specified failing input: `address = 65500`,
100 bytes — the call fails and the state (hence every page byte) is exactly
the original. -/
theorem nxPokeBuffer_bounds_witness :
    nxPokeBuffer nxOpen 65500 (List.replicate 100 0) = (false, nxOpen) :=
  (nxPokeBuffer_bounds nxOpen 65500 (List.replicate 100 0)
    (by decide) (by decide)).1 (by decide)

/-- C5.  With the Layer 2 write redirect clear, a poke followed by a peek of
the same address returns the written byte: both accesses resolve to
`banks[slot]` and the same 14-bit offset. -/
theorem poke_peek_roundtrip (N : NextState) (a v : Nat)
    (h : N.layer2Write0 = false) (hv : v < 256) :
    nxPeek (nxPoke N a v) a = v := by
  simp [nxPoke, nxPeek, nxPeekEx, nxCalcMem, h, Nat.and_assoc]

/-- Witness for C5: on a fresh context, poking `0xAB` at `0x8000` and peeking
it back yields `0xAB`. -/
theorem poke_peek_roundtrip_witness :
    nxPeek (nxPoke nxOpen 0x8000 0xab) 0x8000 = 0xab :=
  poke_peek_roundtrip nxOpen 0x8000 0xab rfl (by decide)

/-- C6.  A write of `v` to port `0x123b` (low byte `0x3b`, high byte `0x12`)
sets `subBank = (v >> 6) & 3`, `shadowEnable` to bit 3 of `v`, `enable` to
bit 1, `write0` to bit 0, and requests a redraw. -/
theorem layer2_access_port_decode (N : NextState) (v : Nat) (hv : v < 256) :
    (nxOut N 0x123b v).layer2Bank = (v >>> 6) &&& 3 ∧
    (nxOut N 0x123b v).layer2ShadowEnable = v.testBit 3 ∧
    (nxOut N 0x123b v).layer2Enable = v.testBit 1 ∧
    (nxOut N 0x123b v).layer2Write0 = v.testBit 0 ∧
    (nxOut N 0x123b v).redraw = true := by
  have h1 := l2_bank_bits v hv
  have h2 := l2_bit_test v hv
  exact ⟨h1, h2.1, h2.2.1, h2.2.2, rfl⟩

/-- Witness for C6 at the specified value `0x0b`: subBank 0, shadowEnable,
enable and write0 all set, redraw requested. -/
theorem layer2_access_port_decode_witness :
    (nxOut nxOpen 0x123b 0x0b).layer2Bank = 0 ∧
    (nxOut nxOpen 0x123b 0x0b).layer2ShadowEnable = true ∧
    (nxOut nxOpen 0x123b 0x0b).layer2Enable = true ∧
    (nxOut nxOpen 0x123b 0x0b).layer2Write0 = true ∧
    (nxOut nxOpen 0x123b 0x0b).redraw = true := by
  obtain ⟨h1, h2, h3, h4, h5⟩ := layer2_access_port_decode nxOpen 0x0b (by decide)
  exact ⟨h1.trans (by decide), h2.trans (by decide), h3.trans (by decide),
    h4.trans (by decide), h5⟩

/-- C7.  The table-driven `nxCrc32` coincides with the standard bit-serial
reflected CRC-32 (polynomial `0xedb88320`, seed `0xffffffff`, final XOR
`0xffffffff`) on every byte sequence; in particular the CRC of the empty
sequence is 0 and the CRC of the ASCII bytes of "123456789" is the standard
check value `0xcbf43926`. -/
theorem nxCrc32_standard :
    (∀ data : List Nat, (∀ d ∈ data, d < 256) → nxCrc32 data = crc32Spec data) ∧
    nxCrc32 [] = 0 ∧
    nxCrc32 [0x31, 0x32, 0x33, 0x34, 0x35, 0x36, 0x37, 0x38, 0x39] = 0xcbf43926 := by
  refine ⟨fun data hd => ?_, by decide, by decide⟩
  unfold nxCrc32 crc32Spec
  rw [nxCrc32Update_eq_spec data hd]

/-- Witness for C7: the refinement applied at the concrete sequence
`[1, 2, 3]`. -/
theorem nxCrc32_standard_witness : nxCrc32 [1, 2, 3] = crc32Spec [1, 2, 3] :=
  nxCrc32_standard.1 [1, 2, 3] (by decide)

/-- C8.  Word accesses wrap the second byte's address modulo 65536:
`nxPoke16` at `0xffff` writes the low byte through address `0xffff` and the
high byte through address `0x0000`, and `nxPeek16` at `0xffff` reads
addresses `0xffff` and `0x0000`. -/
theorem word_access_wraps_at_top (N : NextState) (w : Nat) :
    nxPoke16 N 0xffff w = nxPoke (nxPoke N 0xffff (w % 256)) 0 (w / 256 % 256) ∧
    nxPeek16 N 0xffff = nxPeek N 0xffff + 256 * nxPeek N 0 := by
  constructor
  · unfold nxPoke16
    norm_num
  · unfold nxPeek16
    norm_num

/-- C9.  Every write to a port with low byte `0xfd` recomputes `banks[3]` as
`page0_2 + page3_5 * 8`: high byte `0x7f` latches the low bits first (the
high bits keep their previously latched value), high byte `0xdf` latches the
high bits first, and any other high byte latches nothing but still reassigns
slot 3 from the current latches.  The hypotheses `page0_2 < 8` and
`page3_5 < 8` are the C invariant: those byte fields are only ever assigned
`value & 7` (or zero-cleared). -/
theorem paging_port_recomputes_slot3 (N : NextState) (h v : Nat) (hh : h < 256)
    (hp0 : N.page0_2 < 8) (hp3 : N.page3_5 < 8) :
    (h = 0x7f →
      (nxOut N (h * 256 + 0xfd) v).page0_2 = v &&& 7 ∧
      (nxOut N (h * 256 + 0xfd) v).page3_5 = N.page3_5 ∧
      (nxOut N (h * 256 + 0xfd) v).banks 3 = (v &&& 7) + N.page3_5 * 8) ∧
    (h = 0xdf →
      (nxOut N (h * 256 + 0xfd) v).page0_2 = N.page0_2 ∧
      (nxOut N (h * 256 + 0xfd) v).page3_5 = v &&& 7 ∧
      (nxOut N (h * 256 + 0xfd) v).banks 3 = N.page0_2 + (v &&& 7) * 8) ∧
    (h ≠ 0x7f → h ≠ 0xdf →
      (nxOut N (h * 256 + 0xfd) v).page0_2 = N.page0_2 ∧
      (nxOut N (h * 256 + 0xfd) v).page3_5 = N.page3_5 ∧
      (nxOut N (h * 256 + 0xfd) v).banks 3 = N.page0_2 + N.page3_5 * 8) := by
  have hl : (h * 256 + 0xfd) % 256 = 0xfd := by omega
  have hhb : (h * 256 + 0xfd) / 256 % 256 = h := by omega
  have hv7 : v &&& 7 ≤ 7 := Nat.and_le_right
  have hshl : ∀ x : Nat, x <<< 3 = x * 8 := fun x => by
    rw [Nat.shiftLeft_eq]
  refine ⟨?_, ?_, ?_⟩
  · intro hcase
    subst hcase
    simp [nxOut, hl, hhb, hshl]
    omega
  · intro hcase
    subst hcase
    simp [nxOut, hl, hhb, hshl]
    omega
  · intro hc1 hc2
    simp [nxOut, hl, hhb, hc1, hc2, hshl]
    omega

/-- Witness for C9: on a fresh context, a single write of 3 to `0x7ffd`
(no prior `0xdffd` write) maps slot 3 to bank `3 + 0 * 8 = 3`. -/
theorem paging_port_recomputes_slot3_witness :
    (nxOut nxOpen (0x7f * 256 + 0xfd) 3).banks 3 = 3 ∧
    (nxOut nxOpen (0x7f * 256 + 0xfd) 3).page3_5 = 0 := by
  obtain ⟨h1, _, _⟩ :=
    paging_port_recomputes_slot3 nxOpen 0x7f 3 (by decide) (by decide) (by decide)
  obtain ⟨_, hb, hc⟩ := h1 rfl
  refine ⟨hc.trans (by decide), hb.trans (by decide)⟩

/-- C10.  `nxOpen` defaults: Layer 2 bank start 8, shadow bank start 11,
transparent index `0xe3`, sub-bank 0, the shadow-select / enable /
write-redirect flags all clear, and border 0. -/
theorem nxOpen_defaults :
    nxOpen.layer2BankStart = 8 ∧ nxOpen.layer2ShadowBankStart = 11 ∧
    nxOpen.layer2Transparent = 0xe3 ∧ nxOpen.layer2Bank = 0 ∧
    nxOpen.layer2ShadowEnable = false ∧ nxOpen.layer2Enable = false ∧
    nxOpen.layer2Write0 = false ∧ nxOpen.border = 0 ∧
    nxOpen.banks 0 = 0 ∧ nxOpen.banks 1 = 5 ∧ nxOpen.banks 2 = 2 ∧
    nxOpen.banks 3 = 0 := by
  refine ⟨rfl, rfl, rfl, rfl, rfl, rfl, rfl, rfl, rfl, rfl, rfl, rfl⟩
